import Mathlib

/-
Shallow embedding of `src/lib/model/model.cpp` (namespace atidlas) — the
kernel-variant selection and autotuning engine.

Modelling conventions:
- `std::map` keys/values are embedded as duplicate-free association lists
  with first-match lookup and replace-or-append insertion (`mapFind`,
  `mapInsert`), matching `find` / `at` / `operator[]` semantics.
- `float` costs and timings are embedded as rationals: the claims only
  depend on the order structure of the comparisons.
- External collaborators (the expression tree traversal, the template
  objects' code generation, the OpenCL queue/device) are abstracted as
  fields of the corresponding structures: a template is its `input_sizes`
  and `generate` behavior; a symbolic-expressions container carries the
  representation tokens its traversal would emit under each binding
  policy; `enqueue` is a device-side effect outside the embedding, so the
  observable result of `execute` is the selected variant index (`label`)
  plus the updated model state.
- Out-of-bounds accesses in the source (e.g. `templates_[0]` on an empty
  variant list) are undefined behavior in C++; they are embedded as
  `Option` failure or, for the `a[i]` / `fetch[a[i]]` profile reads in
  `detail::create`, as defaulted reads (`List.getD`) — every claim below
  only exercises in-bounds inputs.
-/

namespace atidlas

/-- First-match lookup in an association list (`std::map::find` / `at`). -/
def mapFind {α β : Type} [DecidableEq α] : List (α × β) → α → Option β
  | [], _ => none
  | (k, v) :: t, key => if k = key then some v else mapFind t key

/-- Replace-or-append insertion in an association list
(`std::map::operator[]` followed by assignment). -/
def mapInsert {α β : Type} [DecidableEq α] : List (α × β) → α → β → List (α × β)
  | [], key, v => [(key, v)]
  | (k, w) :: t, key, v => if k = key then (key, v) :: t else (k, w) :: mapInsert t key v

/-- Index accumulator loop of `std::min_element` followed by
`std::distance`: scan the remaining list, updating the best index only on
a strictly smaller element (`*it < *smallest`), so the FIRST minimum wins. -/
def min_element_aux : List ℚ → ℚ → Nat → Nat → Nat
  | [], _, best, _ => best
  | x :: xs, bv, best, idx =>
    if x < bv then min_element_aux xs x idx (idx + 1)
    else min_element_aux xs bv best (idx + 1)

/-- `std::distance(v.begin(), std::min_element(v.begin(), v.end()))`:
the index of the first minimum element; `0` on the empty vector
(`min_element` returns `end`, whose distance from `begin` is 0). -/
def min_element_index : List ℚ → Nat
  | [] => 0
  | x :: xs => min_element_aux xs x 0 1


/-- `binding_policy_t` from the header: how the fingerprint traversal
binds symbolic leaves to tokens. -/
inductive binding_policy_t : Type
  | BIND_TO_HANDLE
  | BIND_ALL_UNIQUE
deriving DecidableEq

/-- A symbolic-expressions batch. `is_independent` embeds
`order() == symbolic_expressions_container::INDEPENDENT`; `repr_tokens`
abstracts the external traversal
(`traverse(..., symbolic_expression_representation_functor(binder, p), true)`
over all expressions of `data()`): it is the string of characters the
traversal appends under the given binding policy. `ctx` is the identity of
`context()`. -/
structure symbolic_expressions_container : Type where
  is_independent : Bool
  repr_tokens : binding_policy_t → String
  ctx : Nat

/-- `cl::Device`, reduced to the collaborator surface the model reads:
`getInfo<CL_DEVICE_EXTENSIONS>()`. -/
structure Device : Type where
  extensions : String

/-- `cl::CommandQueue`, reduced to the collaborator surface the model
reads: `getInfo<CL_QUEUE_CONTEXT>()` (its identity) and
`getInfo<CL_QUEUE_DEVICE>()`. -/
structure CommandQueue : Type where
  ctx : Nat
  device : Device

/-- `cl_ext::lazy_compiler`: records its program name, the
force-recompilation flag it was constructed with, and the source
fragments appended by `add` (compilation itself is an external,
on-first-use effect). -/
structure lazy_compiler : Type where
  pname : String
  force_recompilation : Bool
  sources : List String
deriving DecidableEq

/-- `lazy_compiler::add`: append one source fragment. -/
def lazy_compiler.add (c : lazy_compiler) (s : String) : lazy_compiler :=
  { c with sources := c.sources ++ [s] }

/-- The template collaborator surface (`class base`) consumed by the
model: `input_sizes` and `generate`. (`enqueue` is a device-side
submission with no effect on the model state, so it is not a field.) -/
structure base : Type where
  input_sizes : symbolic_expressions_container → List Int
  generate : Nat → symbolic_expressions_container → Device → List String

/-- `class model`: the variant list `templates_`, the optional random
forest `predictor_` (abstracted to its `predict` behavior: one predicted
cost per variant), the override table `hardcoded_`
(`std::map<std::vector<int_t>, int>`), the per-(context, program-name)
program cache `lazy_programs_`, and the bound queue `queue_`. -/
structure model : Type where
  templates_ : List base
  predictor_ : Option (List Int → List ℚ)
  hardcoded_ : List (List Int × Nat)
  lazy_programs_ : List ((Nat × String) × List lazy_compiler)
  queue_ : CommandQueue

/-- Naive substring test on character lists, embedding
`std::string::find(needle) != npos`. -/
def isPrefixB : List Char → List Char → Bool
  | [], _ => true
  | _ :: _, [] => false
  | a :: as, b :: bs => a = b && isPrefixB as bs

/-- Substring occurrence test (`find != npos`). -/
def containsSub (needle : List Char) : List Char → Bool
  | [] => isPrefixB needle []
  | hay@(_ :: t) => isPrefixB needle hay || containsSub needle t

/-- `hay.find(needle) != std::string::npos` on strings. -/
def strContains (hay needle : String) : Bool :=
  containsSub needle.data hay.data

/-- `model::define_extension` (model.cpp lines 24-29): emit the enabling
pragma iff the extension string occurs in the device's extension list. -/
def define_extension (extensions ext : String) : String :=
  if strContains extensions ext then
    "#pragma OPENCL EXTENSION " ++ ext ++ " : enable\n"
  else
    ""

/-- `model::fill_program_name` (model.cpp lines 31-46): one batch-kind
prefix character (`i` for independent batches, `s` otherwise) followed by
the representation tokens of the traversal under the chosen binder. The
source writes these characters plus a terminating NUL through a raw
pointer with no bound check. -/
def fill_program_name (se : symbolic_expressions_container)
    (policy : binding_policy_t) : String :=
  (if se.is_independent then "i" else "s") ++ se.repr_tokens policy

/-- Number of bytes `fill_program_name` writes into the caller's buffer:
the prefix character, every representation token, and the final NUL. -/
def fill_program_name_bytes_written (se : symbolic_expressions_container)
    (policy : binding_policy_t) : Nat :=
  (fill_program_name se policy).length + 1

/-- Size of the stack buffer `char program_name[256]` that `model::init`
(line 50) passes to `fill_program_name`. -/
def program_name_buffer_size : Nat := 256

/-- The inner loop of `model::init` (lines 64-70): `to_init[j].add(cur[j])`
for each generated source fragment `j` of one template. Writing past the
end of `to_init` would be out of bounds in the source; the actual
templates generate at most one fragment per existing compiler slot. -/
def add_sources : List lazy_compiler → List String → List lazy_compiler
  | cs, [] => cs
  | [], _ :: _ => []
  | c :: cs, s :: ss => c.add s :: add_sources cs ss

/-- The outer loop of `model::init` (lines 64-70): for each template `i`
in order, append `templates_[i]->generate(i, symbolic_expressions, device)`
to the compiler slots. -/
def generate_all : List base → Nat → symbolic_expressions_container → Device →
    List lazy_compiler → List lazy_compiler
  | [], _, _, _, cs => cs
  | t :: ts, i, se, dev, cs =>
    generate_all ts (i + 1) se dev (add_sources cs (t.generate i se dev))

/-- The cache-miss build of `model::init` (lines 56-70): two lazy
compilers (primary and `_fb` fallback), each pre-seeded with the
`cl_khr_fp64` pragma when the device supports it, then every template's
generated sources appended in order. -/
def build_programs (m : model) (se : symbolic_expressions_container)
    (device : Device) (pname : String) (force : Bool) : List lazy_compiler :=
  generate_all m.templates_ 0 se device
    [ { pname := pname, force_recompilation := force,
        sources := [define_extension device.extensions "cl_khr_fp64"] },
      { pname := pname ++ "_fb", force_recompilation := force,
        sources := [define_extension device.extensions "cl_khr_fp64"] } ]

/-- `model::init` (lines 48-73): look up the compiled-program set under
(context, fingerprint); if the entry is empty, build it and store it.
Returns the set and the updated model state (only `lazy_programs_` can
change). -/
def model.init (m : model) (se : symbolic_expressions_container)
    (device : Device) (force_recompilation : Bool) : List lazy_compiler × model :=
  if ((mapFind m.lazy_programs_
        (se.ctx, fill_program_name se binding_policy_t.BIND_TO_HANDLE)).getD []).isEmpty then
    (build_programs m se device
        (fill_program_name se binding_policy_t.BIND_TO_HANDLE) force_recompilation,
     { m with lazy_programs_ := (mapInsert m.lazy_programs_
          (se.ctx, fill_program_name se binding_policy_t.BIND_TO_HANDLE)
          (build_programs m se device
            (fill_program_name se binding_policy_t.BIND_TO_HANDLE) force_recompilation)) })
  else
    ((mapFind m.lazy_programs_
        (se.ctx, fill_program_name se binding_policy_t.BIND_TO_HANDLE)).getD [], m)

/-- The label computation of `model::execute` (lines 94-108): exact
override first, then the bypass/no-predictor default 0, else the first
argmin of the predictor's cost vector. The predictor dereference is
guarded exactly as in the source: it is only reached when
`bypass_predictor` is false and `predictor_` is non-null. -/
def exec_label (m : model) (x : List Int) (bp : Bool) : Nat :=
  match mapFind m.hardcoded_ x with
  | some v => v
  | none =>
    if bp then 0
    else min_element_index ((m.predictor_.getD (fun _ => [])) x)

/-- `model::execute` (lines 85-112): assert the batch's context matches
the bound queue's context (embedded as `none` on violation), resolve the
compiled-program set via `init`, compute the shape via
`templates_[0]->input_sizes`, select the label, and enqueue
`templates_[label]` (an external device-side submission). Observable
result: the selected label and the updated model state. `templates_[0]`
on an empty variant list is out of bounds in the source (`none` here). -/
def model.execute (m : model) (se : symbolic_expressions_container)
    (bypass_predictor force_recompilation : Bool) : Option (Nat × model) :=
  if se.ctx = m.queue_.ctx then
    match m.templates_ with
    | [] => none
    | t0 :: _ =>
      some (exec_label m (t0.input_sizes se)
              (bypass_predictor || m.predictor_.isNone),
            (m.init se m.queue_.device force_recompilation).2)
  else
    none

/-- `model::tune` (lines 114-136): assert the context, resolve the
compiled-program set, measure every variant in order (the wall-clock
durations are external; `measure i` is the duration recorded for variant
`i`, so the timings vector is `measure` mapped over `0..templates_.size()`),
then store the first argmin of the timings in the override table under
the shape `templates_[0]->input_sizes(symbolic_expressions)`. -/
def model.tune (m : model) (se : symbolic_expressions_container)
    (measure : Nat → ℚ) : Option model :=
  if se.ctx = m.queue_.ctx then
    match m.templates_ with
    | [] => none
    | t0 :: _ =>
      some { (m.init se m.queue_.device false).2 with
             hardcoded_ :=
               mapInsert m.hardcoded_ (t0.input_sizes se)
                 (min_element_index
                   ((List.range m.templates_.length).map measure)) }
  else
    none

/-- `expression_type` tags (from the atidlas headers, as used in
model.cpp). -/
inductive expression_type : Type
  | SCALAR_AXPY_TYPE
  | VECTOR_AXPY_TYPE
  | REDUCTION_TYPE
  | MATRIX_AXPY_TYPE
  | ROW_WISE_REDUCTION_TYPE
  | COL_WISE_REDUCTION_TYPE
  | MATRIX_PRODUCT_NN_TYPE
  | MATRIX_PRODUCT_NT_TYPE
  | MATRIX_PRODUCT_TN_TYPE
  | MATRIX_PRODUCT_TT_TYPE
deriving DecidableEq

/-- `numeric_type` tags (from the atidlas headers, as used in
model.cpp). -/
inductive numeric_type : Type
  | CHAR_TYPE
  | UCHAR_TYPE
  | SHORT_TYPE
  | USHORT_TYPE
  | INT_TYPE
  | UINT_TYPE
  | LONG_TYPE
  | ULONG_TYPE
  | FLOAT_TYPE
  | DOUBLE_TYPE
deriving DecidableEq

/-- `fetching_policy_type` tags. -/
inductive fetching_policy_type : Type
  | FETCH_FROM_LOCAL
  | FETCH_FROM_GLOBAL_STRIDED
  | FETCH_FROM_GLOBAL_CONTIGUOUS
deriving DecidableEq

/-- One constructed template object, as built by `detail::create`
(model.cpp lines 166-189): the constructor that was invoked together
with its argument tuple. The constructors themselves live in external
template headers; the import claims are about which construction occurs. -/
inductive TemplateDesc : Type
  | vaxpy (a0 a1 a2 : Int) (f : fetching_policy_type)
  | reduction (a0 a1 a2 : Int) (f : fetching_policy_type)
  | maxpy (a0 a1 a2 a3 a4 : Int) (f : fetching_policy_type)
  | mreduction_rows (a0 a1 a2 a3 : Int) (f : fetching_policy_type)
  | mreduction_cols (a0 a1 a2 a3 : Int) (f : fetching_policy_type)
  | mproduct_nn (a0 a1 a2 a3 a4 a5 a6 : Int) (f0 f1 : fetching_policy_type) (a9 a10 : Int)
  | mproduct_tn (a0 a1 a2 a3 a4 a5 a6 : Int) (f0 f1 : fetching_policy_type) (a9 a10 : Int)
  | mproduct_nt (a0 a1 a2 a3 a4 a5 a6 : Int) (f0 f1 : fetching_policy_type) (a9 a10 : Int)
  | mproduct_tt (a0 a1 a2 a3 a4 a5 a6 : Int) (f0 f1 : fetching_policy_type) (a9 a10 : Int)
deriving DecidableEq

namespace detail

/-- `detail::get_expression_type` (model.cpp lines 145-157): map an
operation name to its tag, or throw `std::invalid_argument` (embedded as
`Except.error` with the exception's message). -/
def get_expression_type (name : String) : Except String expression_type :=
  if name = "vaxpy" then .ok .VECTOR_AXPY_TYPE
  else if name = "dot" then .ok .REDUCTION_TYPE
  else if name = "maxpy" then .ok .MATRIX_AXPY_TYPE
  else if name = "gemvN" then .ok .ROW_WISE_REDUCTION_TYPE
  else if name = "gemvT" then .ok .COL_WISE_REDUCTION_TYPE
  else if name = "gemmNN" then .ok .MATRIX_PRODUCT_NN_TYPE
  else if name = "gemmNT" then .ok .MATRIX_PRODUCT_NT_TYPE
  else if name = "gemmTN" then .ok .MATRIX_PRODUCT_TN_TYPE
  else if name = "gemmTT" then .ok .MATRIX_PRODUCT_TT_TYPE
  else .error ("Invalid expression: " ++ name)

/-- `detail::get_dtype` (model.cpp lines 159-164). -/
def get_dtype (name : String) : Except String numeric_type :=
  if name = "float32" then .ok .FLOAT_TYPE
  else if name = "float64" then .ok .DOUBLE_TYPE
  else .error ("Invalid datatype: " ++ name)

/-- The local array `fetch[]` of `detail::create` (line 168). -/
def fetchArr : List fetching_policy_type :=
  [.FETCH_FROM_LOCAL, .FETCH_FROM_GLOBAL_STRIDED, .FETCH_FROM_GLOBAL_CONTIGUOUS]

/-- Profile element read `a[i]`. Reading past the end of the profile is
out of bounds in the source; embedded as a defaulted read. -/
def aget (a : List Int) (i : Nat) : Int := a.getD i 0

/-- Fetch-policy selection `fetch[a[i]]`. An index outside 0..2 is out of
bounds in the source; embedded as a defaulted read. -/
def fget (a : List Int) (i : Nat) : fetching_policy_type :=
  fetchArr.getD (aget a i).toNat .FETCH_FROM_LOCAL

/-- `detail::create` (model.cpp lines 166-189): dispatch on the template
name — exact equality for vaxpy/dot/maxpy, substring `find != npos` for
the gemv/gemm names, in source order — and invoke the corresponding
template constructor on the profile's integers; unknown names throw
`std::invalid_argument`. -/
def create (template_name : String) (a : List Int) : Except String TemplateDesc :=
  if template_name = "vaxpy" then
    .ok (.vaxpy (aget a 0) (aget a 1) (aget a 2) (fget a 3))
  else if template_name = "dot" then
    .ok (.reduction (aget a 0) (aget a 1) (aget a 2) (fget a 3))
  else if template_name = "maxpy" then
    .ok (.maxpy (aget a 0) (aget a 1) (aget a 2) (aget a 3) (aget a 4) (fget a 5))
  else if strContains template_name "gemvN" then
    .ok (.mreduction_rows (aget a 0) (aget a 1) (aget a 2) (aget a 3) (fget a 4))
  else if strContains template_name "gemvT" then
    .ok (.mreduction_cols (aget a 0) (aget a 1) (aget a 2) (aget a 3) (fget a 4))
  else if strContains template_name "gemmNN" then
    .ok (.mproduct_nn (aget a 0) (aget a 1) (aget a 2) (aget a 3) (aget a 4)
          (aget a 5) (aget a 6) (fget a 7) (fget a 8) (aget a 9) (aget a 10))
  else if strContains template_name "gemmTN" then
    .ok (.mproduct_tn (aget a 0) (aget a 1) (aget a 2) (aget a 3) (aget a 4)
          (aget a 5) (aget a 6) (fget a 7) (fget a 8) (aget a 9) (aget a 10))
  else if strContains template_name "gemmNT" then
    .ok (.mproduct_nt (aget a 0) (aget a 1) (aget a 2) (aget a 3) (aget a 4)
          (aget a 5) (aget a 6) (fget a 7) (fget a 8) (aget a 9) (aget a 10))
  else if strContains template_name "gemmTT" then
    .ok (.mproduct_tt (aget a 0) (aget a 1) (aget a 2) (aget a 3) (aget a 4)
          (aget a 5) (aget a 6) (fget a 7) (fget a 8) (aget a 9) (aget a 10))
  else
    .error ("Invalid expression: " ++ template_name)

end detail

/-- One (operation, dtype) leaf of the parsed description document:
`{"profiles": [[int, ...], ...], "predictor": <opaque>}`. The predictor
description is consumed opaquely by the random forest constructor, so it
is carried as an uninterpreted string. -/
structure LeafDoc : Type where
  profiles : List (List Int)
  predictor : Option String
deriving DecidableEq

/-- One operation's sub-document: dtype name → leaf. -/
abbrev OpDoc : Type := List (String × LeafDoc)

/-- The parsed description document: operation name → sub-document
(the result of `document.Parse` on the description file; the JSON parse
itself is the external rapidjson collaborator). -/
abbrev Document : Type := List (String × OpDoc)

/-- A selection model as constructed by `import`: the templates built by
`detail::create` in profile order, and the predictor description when the
multi-variant constructor `model(predictor, templates, queue)` was used
(`none` when the single-variant constructor `model(templates, queue)`
was used). -/
structure imported_model : Type where
  templates_ : List TemplateDesc
  predictor_ : Option String
deriving DecidableEq

/-- The target registry map `model_map_t`, keyed by
`(expression_type, numeric_type)`. -/
abbrev model_map_t : Type := List ((expression_type × numeric_type) × imported_model)

/-- The operation-name vector of `import` (model.cpp lines 205-207):
`"vaxpy" << "dot" << "maxpy" << "gemvN" << "gemvT" << "gemmNN"
<< "gemmTN" << "gemmTT"` — note `"gemmNT"` is NOT in this list. -/
def operations : List String :=
  ["vaxpy", "dot", "maxpy", "gemvN", "gemvT", "gemmNN", "gemmTN", "gemmTT"]

/-- The dtype-name vector of `import` (line 208). -/
def dtypes : List String := ["float32", "float64"]

/-- The per-profile template-construction loop of `import`
(lines 225-226), in order. -/
def create_templates (op : String) : List (List Int) → Except String (List TemplateDesc)
  | [] => .ok []
  | p :: ps => do
    let t ← detail.create op p
    let ts ← create_templates op ps
    .ok (t :: ts)

/-- The body of `import` for one (operation, dtype) pair
(lines 218-235): if the dtype key is present, resolve the dtype tag,
build one template per profile, then insert/overwrite the model under
`(etype, dtype)` — with the predictor description iff more than one
template was built (accessing an absent `"predictor"` member would abort
inside rapidjson; embedded as an error). -/
def import_leaf (op : String) (etype : expression_type) (opdoc : OpDoc)
    (dt : String) (result : model_map_t) : Except String model_map_t :=
  match mapFind opdoc dt with
  | none => .ok result
  | some leaf => do
    let dtype ← detail.get_dtype dt
    let templates ← create_templates op leaf.profiles
    if templates.length > 1 then
      match leaf.predictor with
      | some pd =>
        .ok (mapInsert result (etype, dtype)
              { templates_ := templates, predictor_ := some pd })
      | none => .error "predictor member absent"
    else
      .ok (mapInsert result (etype, dtype)
            { templates_ := templates, predictor_ := none })

/-- The dtype loop of `import` (lines 215-236). -/
def import_dtypes (op : String) (etype : expression_type) (opdoc : OpDoc) :
    List String → model_map_t → Except String model_map_t
  | [], r => .ok r
  | dt :: dts, r => do
    let r' ← import_leaf op etype opdoc dt r
    import_dtypes op etype opdoc dts r'

/-- The operation loop of `import` (lines 209-238): iterate the FIXED
operation-name list; a document key outside that list is never looked at. -/
def import_ops (document : Document) :
    List String → model_map_t → Except String model_map_t
  | [], r => .ok r
  | op :: ops, r =>
    match mapFind document op with
    | none => import_ops document ops r
    | some opdoc => do
      let etype ← detail.get_expression_type op
      let r' ← import_dtypes op etype opdoc dtypes r
      import_ops document ops r'

/-- `import` (model.cpp lines 192-239), applied to the already-parsed
description document (file reading and JSON parsing are external
collaborators): deserialize every recognized (operation, dtype) pair into
the target map. -/
def import_models (document : Document) (result : model_map_t) :
    Except String model_map_t :=
  import_ops document operations result

/- ------------------------------------------------------------------ -/
/- Concrete fixtures used by the witness theorems below.               -/
/- ------------------------------------------------------------------ -/

/-- A device advertising double-precision support. -/
def devW : Device := { extensions := "cl_khr_fp64" }

/-- A queue on context 0. -/
def queueW : CommandQueue := { ctx := 0, device := devW }

/-- A batch on context 0 whose traversal emits the tokens `tk`. -/
def seW : symbolic_expressions_container :=
  { is_independent := true, repr_tokens := fun _ => "tk", ctx := 0 }

/-- A template whose feature vector is always `[64]`. -/
def t0W : base :=
  { input_sizes := fun _ => [64], generate := fun _ _ _ => ["k0", "k1"] }

/-- A second template with the same feature vector. -/
def t1W : base :=
  { input_sizes := fun _ => [64], generate := fun _ _ _ => ["m0", "m1"] }

/-- Fixture for the override-priority claim: two variants, a predictor
that always prefers variant 1, and a tuned override of variant 0 for
shape `[64]`. -/
def mW1 : model :=
  { templates_ := [t0W, t1W], predictor_ := some (fun _ => [2, 1]),
    hardcoded_ := [([64], 0)], lazy_programs_ := [], queue_ := queueW }

/-- Fixture for the predictor-argmin claim: three variants, no override,
predicted costs `[5, 3, 3]` (tie between indices 1 and 2). -/
def mW4 : model :=
  { templates_ := [t0W, t1W, t1W], predictor_ := some (fun _ => [5, 3, 3]),
    hardcoded_ := [], lazy_programs_ := [], queue_ := queueW }

/-- Fixture for the bypass-default claim: one variant, no predictor, no
override. -/
def mW5 : model :=
  { templates_ := [t0W], predictor_ := none,
    hardcoded_ := [], lazy_programs_ := [], queue_ := queueW }

/-- Fixture for the tune claim: two variants, an adverse predictor, empty
override table. -/
def mW6 : model :=
  { templates_ := [t0W, t1W], predictor_ := some (fun _ => [1, 2]),
    hardcoded_ := [], lazy_programs_ := [], queue_ := queueW }

/-- Measured durations for the tune fixture: variant 0 takes 5, variant 1
takes 3, so tuning must record variant 1. -/
def measureW : Nat → ℚ := fun i => if i = 0 then 5 else 3

/-- Fixture for the program-set-length claims: three variants. -/
def mW8 : model :=
  { templates_ := [t0W, t1W, t1W], predictor_ := some (fun _ => [1, 2, 3]),
    hardcoded_ := [], lazy_programs_ := [], queue_ := queueW }

/-- A batch whose traversal emits 300 representation characters — more
than the 256-byte `program_name` buffer can hold. -/
def seBig : symbolic_expressions_container :=
  { is_independent := true,
    repr_tokens := fun _ => String.mk (List.replicate 300 'x'), ctx := 0 }

/-- An 11-integer gemm profile (the arity `detail::create` reads for the
gemm templates). -/
def gemmProfileW : List Int := [1, 8, 8, 8, 4, 1, 4, 0, 0, 8, 8]

/-- A description document whose only top-level key is `gemmNT`, with one
valid float32 profile. -/
def docGemmNT : Document :=
  [("gemmNT", [("float32", { profiles := [gemmProfileW], predictor := none })])]

/-- The same document shape for `gemmNN` (an operation that IS in the
iteration list). -/
def docGemmNN : Document :=
  [("gemmNN", [("float32", { profiles := [gemmProfileW], predictor := none })])]

/-- A description document whose only top-level key is the unrecognized
operation name `foo`. -/
def docFoo : Document :=
  [("foo", [("float32", { profiles := [[1, 64, 128, 1]], predictor := none })])]

/-- A nonempty pre-populated registry map, for exercising that an
unrecognized description leaves the target map untouched. -/
def rW : model_map_t :=
  [((expression_type.VECTOR_AXPY_TYPE, numeric_type.FLOAT_TYPE),
    { templates_ := [TemplateDesc.vaxpy 1 64 128
        fetching_policy_type.FETCH_FROM_GLOBAL_STRIDED],
      predictor_ := none })]

theorem mapFind_mapInsert_self {α β : Type} [DecidableEq α]
    (m : List (α × β)) (k : α) (v : β) : mapFind (mapInsert m k v) k = some v := by
  induction m with
  | nil => simp [mapFind, mapInsert]
  | cons p t ih =>
    obtain ⟨k', w⟩ := p
    by_cases h : k' = k
    · simp [mapFind, mapInsert, h]
    · simp [mapFind, mapInsert, h, ih]

theorem mapInsert_self {α β : Type} [DecidableEq α]
    (m : List (α × β)) (k : α) (v : β) (h : mapFind m k = some v) :
    mapInsert m k v = m := by
  induction m with
  | nil => simp [mapFind] at h
  | cons p t ih =>
    obtain ⟨k', w⟩ := p
    by_cases hk : k' = k
    · subst hk
      simp [mapFind] at h
      simp [mapInsert, h]
    · simp [mapFind, hk] at h
      simp [mapInsert, hk, ih h]


theorem min_element_aux_spec (rest : List ℚ) : ∀ (bv : ℚ) (best idx : Nat),
    (min_element_aux rest bv best idx = best ∧
      ∀ k, k < rest.length → bv ≤ rest.getD k 0)
    ∨ (∃ m, m < rest.length ∧ min_element_aux rest bv best idx = idx + m ∧
        rest.getD m 0 < bv ∧
        (∀ k, k < rest.length → rest.getD m 0 ≤ rest.getD k 0) ∧
        (∀ k, k < m → rest.getD m 0 < rest.getD k 0)) := by
  induction rest with
  | nil =>
    intro bv best idx
    left
    refine ⟨rfl, ?_⟩
    intro k hk
    simp at hk
  | cons x xs ih =>
    intro bv best idx
    by_cases hx : x < bv
    · rcases ih x idx (idx + 1) with ⟨heq, hall⟩ | ⟨m, hm, heq, hlt, hmin, hstrict⟩
      · right
        refine ⟨0, by simp, ?_, ?_, ?_, ?_⟩
        · simpa [min_element_aux, hx] using heq
        · simpa using hx
        · intro k hk
          match k with
          | 0 => simp
          | Nat.succ k' =>
            simp only [List.getD_cons_zero, List.getD_cons_succ]
            exact hall k' (by simpa using hk)
        · intro k hk
          exact absurd hk (Nat.not_lt_zero k)
      · right
        refine ⟨m + 1, by simpa using hm, ?_, ?_, ?_, ?_⟩
        · have : min_element_aux (x :: xs) bv best idx = min_element_aux xs x idx (idx + 1) := by
            simp [min_element_aux, hx]
          rw [this, heq]
          omega
        · simpa using lt_trans hlt hx
        · intro k hk
          match k with
          | 0 =>
            simp only [List.getD_cons_zero, List.getD_cons_succ]
            exact le_of_lt hlt
          | Nat.succ k' =>
            simp only [List.getD_cons_succ]
            exact hmin k' (by simpa using hk)
        · intro k hk
          match k with
          | 0 =>
            simp only [List.getD_cons_zero, List.getD_cons_succ]
            exact hlt
          | Nat.succ k' =>
            simp only [List.getD_cons_succ]
            exact hstrict k' (by omega)
    · have hbvx : bv ≤ x := le_of_not_lt hx
      rcases ih bv best (idx + 1) with ⟨heq, hall⟩ | ⟨m, hm, heq, hlt, hmin, hstrict⟩
      · left
        constructor
        · simpa [min_element_aux, hx] using heq
        · intro k hk
          match k with
          | 0 => simpa using hbvx
          | Nat.succ k' =>
            simp only [List.getD_cons_succ]
            exact hall k' (by simpa using hk)
      · right
        refine ⟨m + 1, by simpa using hm, ?_, ?_, ?_, ?_⟩
        · have : min_element_aux (x :: xs) bv best idx = min_element_aux xs bv best (idx + 1) := by
            simp [min_element_aux, hx]
          rw [this, heq]
          omega
        · simpa using hlt
        · intro k hk
          match k with
          | 0 =>
            simp only [List.getD_cons_zero, List.getD_cons_succ]
            exact le_of_lt (lt_of_lt_of_le hlt hbvx)
          | Nat.succ k' =>
            simp only [List.getD_cons_succ]
            exact hmin k' (by simpa using hk)
        · intro k hk
          match k with
          | 0 =>
            simp only [List.getD_cons_zero, List.getD_cons_succ]
            exact lt_of_lt_of_le hlt hbvx
          | Nat.succ k' =>
            simp only [List.getD_cons_succ]
            exact hstrict k' (by omega)

/-- On a nonempty vector, `min_element_index` is in range, attains the
minimum, and every earlier element is strictly larger (first-minimum
tie-break). -/
theorem min_element_index_spec (x : ℚ) (xs : List ℚ) :
    min_element_index (x :: xs) < (x :: xs).length ∧
    (∀ k, k < (x :: xs).length →
      (x :: xs).getD (min_element_index (x :: xs)) 0 ≤ (x :: xs).getD k 0) ∧
    (∀ k, k < min_element_index (x :: xs) →
      (x :: xs).getD (min_element_index (x :: xs)) 0 < (x :: xs).getD k 0) := by
  have hidx : min_element_index (x :: xs) = min_element_aux xs x 0 1 := rfl
  rcases min_element_aux_spec xs x 0 1 with ⟨heq, hall⟩ | ⟨m, hm, heq, hlt, hmin, hstrict⟩
  · rw [hidx, heq]
    refine ⟨by simp, ?_, ?_⟩
    · intro k hk
      match k with
      | 0 => simp
      | Nat.succ k' =>
        simp only [List.getD_cons_zero, List.getD_cons_succ]
        exact hall k' (by simpa using hk)
    · intro k hk
      exact absurd hk (Nat.not_lt_zero k)
  · rw [hidx, heq]
    have hget : (x :: xs).getD (1 + m) 0 = xs.getD m 0 := by
      rw [Nat.add_comm]
      simp
    refine ⟨by simp; omega, ?_, ?_⟩
    · intro k hk
      rw [hget]
      match k with
      | 0 =>
        simp only [List.getD_cons_zero]
        exact le_of_lt hlt
      | Nat.succ k' =>
        simp only [List.getD_cons_succ]
        exact hmin k' (by simpa using hk)
    · intro k hk
      rw [hget]
      match k with
      | 0 =>
        simp only [List.getD_cons_zero]
        exact hlt
      | Nat.succ k' =>
        simp only [List.getD_cons_succ]
        exact hstrict k' (by omega)


theorem add_sources_length (cs : List lazy_compiler) (ss : List String) :
    (add_sources cs ss).length = cs.length := by
  induction cs generalizing ss with
  | nil => cases ss <;> simp [add_sources]
  | cons c cs ih =>
    cases ss with
    | nil => simp [add_sources]
    | cons s ss => simp [add_sources, ih]

theorem generate_all_length (ts : List base) (i : Nat)
    (se : symbolic_expressions_container) (dev : Device)
    (cs : List lazy_compiler) :
    (generate_all ts i se dev cs).length = cs.length := by
  induction ts generalizing i cs with
  | nil => simp [generate_all]
  | cons t ts ih => simp [generate_all, ih, add_sources_length]

theorem build_programs_length (m : model) (se : symbolic_expressions_container)
    (dev : Device) (pname : String) (force : Bool) :
    (build_programs m se dev pname force).length = 2 := by
  simp [build_programs, generate_all_length]

theorem build_programs_isEmpty (m : model) (se : symbolic_expressions_container)
    (dev : Device) (pname : String) (force : Bool) :
    (build_programs m se dev pname force).isEmpty = false := by
  have h := build_programs_length m se dev pname force
  cases hB : build_programs m se dev pname force with
  | nil => rw [hB] at h; simp at h
  | cons a l => rfl

theorem init_eq_of_empty (m : model) (se : symbolic_expressions_container)
    (dev : Device) (f : Bool)
    (h : ((mapFind m.lazy_programs_
        (se.ctx, fill_program_name se binding_policy_t.BIND_TO_HANDLE)).getD
        []).isEmpty = true) :
    m.init se dev f =
      (build_programs m se dev
          (fill_program_name se binding_policy_t.BIND_TO_HANDLE) f,
       { m with lazy_programs_ := (mapInsert m.lazy_programs_
          (se.ctx, fill_program_name se binding_policy_t.BIND_TO_HANDLE)
          (build_programs m se dev
            (fill_program_name se binding_policy_t.BIND_TO_HANDLE) f)) }) := by
  unfold model.init
  rw [if_pos h]

theorem init_eq_of_nonempty (m : model) (se : symbolic_expressions_container)
    (dev : Device) (f : Bool)
    (h : ((mapFind m.lazy_programs_
        (se.ctx, fill_program_name se binding_policy_t.BIND_TO_HANDLE)).getD
        []).isEmpty = false) :
    m.init se dev f =
      ((mapFind m.lazy_programs_
          (se.ctx, fill_program_name se binding_policy_t.BIND_TO_HANDLE)).getD [],
       m) := by
  unfold model.init
  rw [if_neg (by simp [h])]

theorem init_snd_hardcoded (m : model) (se : symbolic_expressions_container)
    (dev : Device) (f : Bool) :
    ((m.init se dev f).2).hardcoded_ = m.hardcoded_ := by
  unfold model.init
  split <;> rfl

theorem init_snd_templates (m : model) (se : symbolic_expressions_container)
    (dev : Device) (f : Bool) :
    ((m.init se dev f).2).templates_ = m.templates_ := by
  unfold model.init
  split <;> rfl

theorem init_snd_queue (m : model) (se : symbolic_expressions_container)
    (dev : Device) (f : Bool) :
    ((m.init se dev f).2).queue_ = m.queue_ := by
  unfold model.init
  split <;> rfl

theorem init_snd_predictor (m : model) (se : symbolic_expressions_container)
    (dev : Device) (f : Bool) :
    ((m.init se dev f).2).predictor_ = m.predictor_ := by
  unfold model.init
  split <;> rfl

theorem execute_eq (m : model) (se : symbolic_expressions_container)
    (bp fr : Bool) (t0 : base) (ts : List base)
    (hctx : se.ctx = m.queue_.ctx) (ht : m.templates_ = t0 :: ts) :
    m.execute se bp fr =
      some (exec_label m (t0.input_sizes se) (bp || m.predictor_.isNone),
            (m.init se m.queue_.device fr).2) := by
  simp [model.execute, hctx, ht]

/-- C1: for every expression batch whose input shape has an exact entry
in the OverrideTable (`hardcoded_`), `execute` selects that recorded
variant index, regardless of `bypass_predictor` and regardless of whether
a predictor is attached or what it would return (the predictor is a field
of the universally quantified model `m`). -/
theorem C1_override_beats_predictor (m : model)
    (se : symbolic_expressions_container) (t0 : base) (ts : List base)
    (v : Nat) (bp fr : Bool)
    (hctx : se.ctx = m.queue_.ctx)
    (ht : m.templates_ = t0 :: ts)
    (hov : mapFind m.hardcoded_ (t0.input_sizes se) = some v) :
    m.execute se bp fr = some (v, (m.init se m.queue_.device fr).2) := by
  simp [model.execute, hctx, ht, exec_label, hov]

theorem C1_witness :
    mW1.execute seW false false = some (0, (mW1.init seW mW1.queue_.device false).2) :=
  C1_override_beats_predictor mW1 seW t0W [t1W] 0 false false rfl rfl rfl

/-- C4: when no override matches, `bypass_predictor` is false and a
predictor is attached, `execute` selects
`distance(begin, min_element(predictions))`: an in-range index attaining
the minimum predicted cost, with every earlier index strictly more
expensive (lowest-index tie-break). -/
theorem C4_predictor_argmin (m : model)
    (se : symbolic_expressions_container) (t0 : base) (ts : List base)
    (p : List Int → List ℚ) (c0 : ℚ) (cs : List ℚ) (fr : Bool)
    (hctx : se.ctx = m.queue_.ctx)
    (ht : m.templates_ = t0 :: ts)
    (hp : m.predictor_ = some p)
    (hov : mapFind m.hardcoded_ (t0.input_sizes se) = none)
    (hc : p (t0.input_sizes se) = c0 :: cs) :
    m.execute se false fr =
      some (min_element_index (c0 :: cs), (m.init se m.queue_.device fr).2) ∧
    min_element_index (c0 :: cs) < (c0 :: cs).length ∧
    (∀ k, k < (c0 :: cs).length →
      (c0 :: cs).getD (min_element_index (c0 :: cs)) 0 ≤ (c0 :: cs).getD k 0) ∧
    (∀ k, k < min_element_index (c0 :: cs) →
      (c0 :: cs).getD (min_element_index (c0 :: cs)) 0 < (c0 :: cs).getD k 0) := by
  refine ⟨?_, min_element_index_spec c0 cs⟩
  simp [model.execute, hctx, ht, exec_label, hov, hp, hc]

theorem C4_witness :
    ∃ m2, mW4.execute seW false false = some (1, m2) := by
  have h := C4_predictor_argmin mW4 seW t0W [t1W, t1W]
    (fun _ => [5, 3, 3]) 5 [3, 3] false rfl rfl rfl rfl rfl
  exact ⟨(mW4.init seW mW4.queue_.device false).2, h.1⟩

/-- C5: when no override matches and either `bypass_predictor` is
requested or no predictor is attached, `execute` selects variant 0. -/
theorem C5_default_variant_zero (m : model)
    (se : symbolic_expressions_container) (t0 : base) (ts : List base)
    (bp fr : Bool)
    (hctx : se.ctx = m.queue_.ctx)
    (ht : m.templates_ = t0 :: ts)
    (hov : mapFind m.hardcoded_ (t0.input_sizes se) = none)
    (hbp : bp = true ∨ m.predictor_ = none) :
    m.execute se bp fr = some (0, (m.init se m.queue_.device fr).2) := by
  rcases hbp with hbp | hbp <;>
    simp [model.execute, hctx, ht, exec_label, hov, hbp]

theorem C5_witness :
    mW5.execute seW false false = some (0, (mW5.init seW mW5.queue_.device false).2) :=
  C5_default_variant_zero mW5 seW t0W [] false false rfl rfl rfl (Or.inr rfl)

/-- C10: `execute` never mutates the override table: whenever it returns,
the resulting model state carries `hardcoded_` unchanged; and the cache
fill `init` (the only state `execute` touches) also leaves `hardcoded_`
unchanged. -/
theorem C10_execute_never_mutates_overrides :
    (∀ (m : model) (se : symbolic_expressions_container) (bp fr : Bool),
      (m.execute se bp fr).map (fun r => (r.2).hardcoded_) =
        (m.execute se bp fr).map (fun _ => m.hardcoded_)) ∧
    (∀ (m : model) (se : symbolic_expressions_container) (dev : Device) (f : Bool),
      ((m.init se dev f).2).hardcoded_ = m.hardcoded_) := by
  constructor
  · intro m se bp fr
    by_cases hctx : se.ctx = m.queue_.ctx
    · cases htm : m.templates_ with
      | nil => simp [model.execute, hctx, htm]
      | cons t0 ts =>
        simp [model.execute, hctx, htm, init_snd_hardcoded]
    · simp [model.execute, hctx]
  · intro m se dev f
    exact init_snd_hardcoded m se dev f

/-- C6: after `tune` completes, the override table maps the batch's input
shape (computed via `templates_[0]->input_sizes`) to the index of the
variant with minimum measured duration (`measure i` being variant `i`'s
measured duration), tie-broken by lowest index, and a subsequent
`execute` on the same model with a batch of that shape selects exactly
that index (for every `bypass_predictor` value and any predictor). -/
theorem C6_tune_records_argmin (m : model)
    (se se2 : symbolic_expressions_container) (t0 : base) (ts : List base)
    (measure : Nat → ℚ) (bp fr : Bool)
    (hctx : se.ctx = m.queue_.ctx) (hctx2 : se2.ctx = m.queue_.ctx)
    (ht : m.templates_ = t0 :: ts)
    (hsh : t0.input_sizes se2 = t0.input_sizes se) :
    ∃ m', m.tune se measure = some m' ∧
      mapFind m'.hardcoded_ (t0.input_sizes se) =
        some (min_element_index ((List.range (ts.length + 1)).map measure)) ∧
      min_element_index ((List.range (ts.length + 1)).map measure) < ts.length + 1 ∧
      (∀ k, k < ts.length + 1 →
        ((List.range (ts.length + 1)).map measure).getD
            (min_element_index ((List.range (ts.length + 1)).map measure)) 0 ≤
          ((List.range (ts.length + 1)).map measure).getD k 0) ∧
      (∀ k, k < min_element_index ((List.range (ts.length + 1)).map measure) →
        ((List.range (ts.length + 1)).map measure).getD
            (min_element_index ((List.range (ts.length + 1)).map measure)) 0 <
          ((List.range (ts.length + 1)).map measure).getD k 0) ∧
      ∃ m2, m'.execute se2 bp fr =
        some (min_element_index ((List.range (ts.length + 1)).map measure), m2) := by
  refine ⟨{ (m.init se m.queue_.device false).2 with
            hardcoded_ := (mapInsert m.hardcoded_ (t0.input_sizes se)
              (min_element_index ((List.range (ts.length + 1)).map measure))) },
          ?_, ?_, ?_, ?_, ?_, ?_⟩
  · simp [model.tune, hctx, ht]
  · simp [mapFind_mapInsert_self]
  · have hlen : ((List.range (ts.length + 1)).map measure).length = ts.length + 1 := by
      simp
    cases hT : (List.range (ts.length + 1)).map measure with
    | nil => rw [hT] at hlen; simp at hlen
    | cons c0 cs =>
      rw [hT] at hlen
      rw [← hlen]
      exact (min_element_index_spec c0 cs).1
  · have hlen : ((List.range (ts.length + 1)).map measure).length = ts.length + 1 := by
      simp
    cases hT : (List.range (ts.length + 1)).map measure with
    | nil => rw [hT] at hlen; simp at hlen
    | cons c0 cs =>
      rw [hT] at hlen
      rw [← hlen]
      exact (min_element_index_spec c0 cs).2.1
  · have hlen : ((List.range (ts.length + 1)).map measure).length = ts.length + 1 := by
      simp
    cases hT : (List.range (ts.length + 1)).map measure with
    | nil => rw [hT] at hlen; simp at hlen
    | cons c0 cs =>
      exact (min_element_index_spec c0 cs).2.2
  · have htpl : ({ (m.init se m.queue_.device false).2 with
        hardcoded_ := (mapInsert m.hardcoded_ (t0.input_sizes se)
          (min_element_index ((List.range (ts.length + 1)).map measure))) } :
          model).templates_ = t0 :: ts := by
      rw [← ht]
      exact init_snd_templates m se m.queue_.device false
    have hq : ({ (m.init se m.queue_.device false).2 with
        hardcoded_ := (mapInsert m.hardcoded_ (t0.input_sizes se)
          (min_element_index ((List.range (ts.length + 1)).map measure))) } :
          model).queue_ = m.queue_ :=
      init_snd_queue m se m.queue_.device false
    have hex := execute_eq { (m.init se m.queue_.device false).2 with
        hardcoded_ := (mapInsert m.hardcoded_ (t0.input_sizes se)
          (min_element_index ((List.range (ts.length + 1)).map measure))) }
      se2 bp fr t0 ts (by rw [hq]; exact hctx2) htpl
    have hlabel : exec_label { (m.init se m.queue_.device false).2 with
        hardcoded_ := (mapInsert m.hardcoded_ (t0.input_sizes se)
          (min_element_index ((List.range (ts.length + 1)).map measure))) }
        (t0.input_sizes se2)
        (bp || (({ (m.init se m.queue_.device false).2 with
          hardcoded_ := (mapInsert m.hardcoded_ (t0.input_sizes se)
            (min_element_index ((List.range (ts.length + 1)).map measure))) } :
            model).predictor_).isNone) =
        min_element_index ((List.range (ts.length + 1)).map measure) := by
      simp [exec_label, hsh, mapFind_mapInsert_self]
    rw [hlabel] at hex
    exact ⟨_, hex⟩

theorem C6_witness :
    ∃ m', mW6.tune seW measureW = some m' ∧ mapFind m'.hardcoded_ [64] = some 1 := by
  have h := C6_tune_records_argmin mW6 seW seW t0W [t1W] measureW false false
    rfl rfl rfl rfl
  obtain ⟨m', h1, h2, _⟩ := h
  exact ⟨m', h1, h2⟩

/-- C7: the program-cache fill is idempotent: a second `init` on the same
model with a batch of identical structural fingerprint and the same
context returns the already-built compiled-program set unchanged and
leaves the model state (in particular the cache) unchanged, whatever the
second call's device and force-recompilation arguments. -/
theorem C7_program_cache_idempotent (m : model)
    (se se2 : symbolic_expressions_container) (dev dev2 : Device) (f f2 : Bool)
    (hpn : fill_program_name se2 binding_policy_t.BIND_TO_HANDLE =
           fill_program_name se binding_policy_t.BIND_TO_HANDLE)
    (hctx : se2.ctx = se.ctx) :
    ((m.init se dev f).2).init se2 dev2 f2 = m.init se dev f := by
  have hkey2 : ((se2.ctx, fill_program_name se2 binding_policy_t.BIND_TO_HANDLE) :
      Nat × String) =
      (se.ctx, fill_program_name se binding_policy_t.BIND_TO_HANDLE) := by
    rw [hpn, hctx]
  cases hE : ((mapFind m.lazy_programs_
      (se.ctx, fill_program_name se binding_policy_t.BIND_TO_HANDLE)).getD
      []).isEmpty
  · rw [init_eq_of_nonempty m se dev f hE]
    have hE2 : ((mapFind m.lazy_programs_
        (se2.ctx, fill_program_name se2 binding_policy_t.BIND_TO_HANDLE)).getD
        []).isEmpty = false := by
      rw [hkey2]; exact hE
    rw [init_eq_of_nonempty m se2 dev2 f2 hE2]
    rw [hkey2]
  · rw [init_eq_of_empty m se dev f hE]
    have hfind : mapFind ({ m with lazy_programs_ := (mapInsert m.lazy_programs_
        (se.ctx, fill_program_name se binding_policy_t.BIND_TO_HANDLE)
        (build_programs m se dev
          (fill_program_name se binding_policy_t.BIND_TO_HANDLE) f)) } :
          model).lazy_programs_
        (se2.ctx, fill_program_name se2 binding_policy_t.BIND_TO_HANDLE) =
        some (build_programs m se dev
          (fill_program_name se binding_policy_t.BIND_TO_HANDLE) f) := by
      rw [hkey2]
      exact mapFind_mapInsert_self _ _ _
    have hE2 : ((mapFind ({ m with lazy_programs_ := (mapInsert m.lazy_programs_
        (se.ctx, fill_program_name se binding_policy_t.BIND_TO_HANDLE)
        (build_programs m se dev
          (fill_program_name se binding_policy_t.BIND_TO_HANDLE) f)) } :
          model).lazy_programs_
        (se2.ctx, fill_program_name se2 binding_policy_t.BIND_TO_HANDLE)).getD
        []).isEmpty = false := by
      rw [hfind]
      exact build_programs_isEmpty m se dev _ f
    rw [init_eq_of_nonempty _ se2 dev2 f2 hE2]
    rw [hfind]
    rfl

theorem C7_witness :
    ((mW1.init seW devW false).2).init seW devW true = mW1.init seW devW false :=
  C7_program_cache_idempotent mW1 seW seW devW devW false true rfl rfl

/-- C8 (amended): on a cache miss, the compiled-program set `init` builds
always has exactly 2 entries — the primary and the `_fb` fallback
compiler — independent of the number of variants in the model; each
variant appends its generated sources into those two slots. -/
theorem C8_program_set_has_two_slots (m : model)
    (se : symbolic_expressions_container) (dev : Device) (f : Bool)
    (h : ((mapFind m.lazy_programs_
        (se.ctx, fill_program_name se binding_policy_t.BIND_TO_HANDLE)).getD
        []).isEmpty = true) :
    ((m.init se dev f).1).length = 2 := by
  rw [init_eq_of_empty m se dev f h]
  exact build_programs_length m se dev _ f

theorem C8_witness : ((mW1.init seW devW false).1).length = 2 :=
  C8_program_set_has_two_slots mW1 seW devW false rfl

/-- C8 counterexample: a model with 3 variants still gets a 2-element
compiled-program set, refuting "length equal to the number of Variants
(plus one fallback slot)", which would require 3 (or 4). -/
theorem C8_counterexample :
    ((mW8.init seW devW false).1).length = 2 ∧ mW8.templates_.length = 3 :=
  ⟨rfl, rfl⟩

set_option maxRecDepth 4000 in
/-- C9: `fill_program_name` performs no length check: on a batch whose
traversal emits 300 representation characters it writes 302 bytes
(prefix + tokens + NUL) — past the 256-byte `program_name` stack buffer
`model::init` reserves — and still produces the full, untruncated string
instead of failing fast. -/
theorem C9_fingerprint_overflow_unchecked :
    fill_program_name_bytes_written seBig binding_policy_t.BIND_TO_HANDLE = 302 ∧
    program_name_buffer_size = 256 ∧
    fill_program_name seBig binding_policy_t.BIND_TO_HANDLE =
      String.mk ('i' :: List.replicate 300 'x') :=
  ⟨rfl, rfl, rfl⟩

theorem mapFind_eq_none {α β : Type} [DecidableEq α] (l : List (α × β)) (k : α)
    (h : ∀ kv ∈ l, kv.1 ≠ k) : mapFind l k = none := by
  induction l with
  | nil => rfl
  | cons p t ih =>
    obtain ⟨k', v⟩ := p
    have hk : k' ≠ k := h (k', v) (List.mem_cons_self _ _)
    simp only [mapFind, if_neg hk]
    exact ih fun kv hkv => h kv (List.mem_cons_of_mem _ hkv)

theorem import_ops_skips (doc : Document) (ops : List String) (r : model_map_t)
    (h : ∀ op ∈ ops, mapFind doc op = none) :
    import_ops doc ops r = Except.ok r := by
  induction ops with
  | nil => rfl
  | cons op rest ih =>
    simp only [import_ops, h op (List.mem_cons_self _ _)]
    exact ih fun o ho => h o (List.mem_cons_of_mem _ ho)

/-- C2: evidence that `import` does NOT accept the full 9-name operation
set: a description whose only key is `gemmNT` is silently skipped (the
iteration list at model.cpp lines 205-207 omits `"gemmNT"`), even though
`detail::get_expression_type` and `detail::create` in the same file both
support `gemmNT` — their branches are unreachable from `import` — while
the same description under `gemmNN` imports one single-variant model as
the claim describes. -/
theorem C2_gemmNT_silently_dropped :
    import_models docGemmNT [] = Except.ok [] ∧
    detail.get_expression_type "gemmNT" =
      Except.ok expression_type.MATRIX_PRODUCT_NT_TYPE ∧
    detail.create "gemmNT" gemmProfileW =
      Except.ok (TemplateDesc.mproduct_nt 1 8 8 8 4 1 4
        fetching_policy_type.FETCH_FROM_LOCAL
        fetching_policy_type.FETCH_FROM_LOCAL 8 8) ∧
    import_models docGemmNN [] =
      Except.ok [((expression_type.MATRIX_PRODUCT_NN_TYPE, numeric_type.FLOAT_TYPE),
        { templates_ := [TemplateDesc.mproduct_nn 1 8 8 8 4 1 4
            fetching_policy_type.FETCH_FROM_LOCAL
            fetching_policy_type.FETCH_FROM_LOCAL 8 8],
          predictor_ := none })] :=
  ⟨rfl, rfl, rfl, rfl⟩

/-- C3 counterexample: a description whose only top-level key is the
unrecognized operation `foo` does NOT make `import` fail — it succeeds
and leaves the (empty) target map unchanged, because `import` iterates
only its fixed operation-name list and never looks at other keys. -/
theorem C3_unknown_op_not_rejected : import_models docFoo [] = Except.ok [] :=
  rfl

/-- C3 (amended): `import` silently ignores unrecognized top-level
operation keys (and, symmetrically, dtype keys other than
float32/float64): a document none of whose keys is a recognized operation
name leaves any target map unchanged with no error. The name-resolution
helpers `detail::get_expression_type` / `detail::get_dtype` do throw
`std::invalid_argument` on unrecognized names, but `import` only ever
invokes them on names from its fixed lists. -/
theorem C3_unknown_keys_silently_ignored :
    (∀ (doc : Document) (r : model_map_t),
      (∀ kv ∈ doc, kv.1 ∉ operations) → import_models doc r = Except.ok r) ∧
    detail.get_expression_type "foo" = Except.error "Invalid expression: foo" ∧
    detail.get_dtype "float16" = Except.error "Invalid datatype: float16" := by
  refine ⟨?_, rfl, rfl⟩
  intro doc r hdoc
  apply import_ops_skips
  intro op hop
  apply mapFind_eq_none
  intro kv hkv heq
  exact hdoc kv hkv (heq ▸ hop)

theorem C3_witness :
    import_models docFoo rW = Except.ok rW ∧
    detail.get_dtype "float16" = Except.error "Invalid datatype: float16" :=
  ⟨C3_unknown_keys_silently_ignored.1 docFoo rW (by decide),
   C3_unknown_keys_silently_ignored.2.2⟩

end atidlas
